import Mathlib

/-!
Verification of the firecam unified storage-access layer
(`firecam/lib/goog_helper.py`): path codec, bounded retry, pagination,
drive folder/file operations and recursive bucket download.

Python strings are embedded as `List Char`; Python `None`-or-value results as
`Option`; exceptions as explicit outcome constructors.  Remote services are
embedded as explicit backends: the Google Drive list call becomes a function
from (page token, attempt index) to an optional page, and a Cloud Storage
bucket becomes the list of its object names.
-/

set_option linter.unusedVariables false

/-- Python `str` embedded as a list of characters. -/
abbrev PyStr := List Char

/-- Convenience literal conversion. -/
def pstr (s : String) : PyStr := s.data

/-! RetryGate: the inline 5-attempt retry loop

`createFolder`, `uploadFile` and `driveListFilesQueryWithNextToken` all inline
the same loop:

    retriesLeft = 5
    while retriesLeft > 0:
        retriesLeft -= 1
        try:  return <operation>
        except Exception as e:
            logging.warning(...)
            if retriesLeft > 0:
                time.sleep(5)
    logging.error(...)
    return None

The operation is embedded as `op : Nat → Option α` giving the outcome of each
attempt (numbered from 0); `none` is a raised exception.  The trace records
how many attempts were made and how many 5-second sleeps happened. -/

/-- Result of running the retry loop: attempt count, sleep count, and the
returned value (`none` is the sentinel-failure returned after exhaustion). -/
structure RetryTrace (α : Type) where
  attempts : Nat
  sleeps : Nat
  result : Option α
deriving DecidableEq

/-- The fixed delay (seconds) slept between attempts: `time.sleep(5)`. -/
def retryDelaySeconds : Nat := 5

/-- Total simulated delay of a retry trace. -/
def totalDelay {α : Type} (t : RetryTrace α) : Nat := t.sleeps * retryDelaySeconds

/-- The retry loop body: `retriesLeft` is decremented on entry, the operation
is attempted, and on failure the loop sleeps only if attempts remain. -/
def retryLoopAux {α : Type} (op : Nat → Option α) : Nat → Nat → Nat → RetryTrace α
  | 0, att, slp => ⟨att, slp, none⟩
  | retriesLeft + 1, att, slp =>
    match op att with
    | some v => ⟨att + 1, slp, some v⟩
    | none =>
      if retriesLeft > 0 then retryLoopAux op retriesLeft (att + 1) (slp + 1)
      else retryLoopAux op retriesLeft (att + 1) slp

/-- The retry wrapper with the process-wide policy `retriesLeft = 5`. -/
def retryGate5 {α : Type} (op : Nat → Option α) : RetryTrace α := retryLoopAux op 5 0 0

/-- Model of `createFolder`: the drive create call wrapped in the retry loop; `op`
models `service.files().create(...).execute()['id']` per attempt. -/
def createFolder {α : Type} (op : Nat → Option α) : RetryTrace α := retryGate5 op

/-- Model of `uploadFile`: the drive upload call wrapped in the same retry loop. -/
def uploadFile {α : Type} (op : Nat → Option α) : RetryTrace α := retryGate5 op

/-! Drive listing and pagination. -/

/-- A `{id, name}` item returned by the drive list call. -/
structure DriveItem where
  id : PyStr
  name : PyStr
deriving DecidableEq

/-- The drive list backend: given a page token and an attempt index, either a
page `(items, nextPageToken)` or `none` (the call raised). -/
abbrev DriveBackend := Option PyStr → Nat → Option (List DriveItem × Option PyStr)

/-- Model of `driveListFilesQueryWithNextToken`: one page fetch wrapped in the 5-attempt
retry loop; returns `(items, nextPageToken)`, or `None` after exhaustion. -/
def driveListFilesQueryWithNextToken (backend : DriveBackend) (pageToken : Option PyStr) :
    Option (List DriveItem × Option PyStr) :=
  (retryGate5 (backend pageToken)).result

/-- Outcome of `driveListFilesQuery`, which unpacks the tuple returned by
`driveListFilesQueryWithNextToken`: unpacking the `None` sentinel raises a
`TypeError`. -/
inductive DriveListQueryOutcome where
  | items (l : List DriveItem)
  | typeErrorCrash
deriving DecidableEq

/-- Model of `driveListFilesQuery`: `(items, nextPageToken) = driveListFilesQueryWithNextToken(...)`
with no page token, returning only the items. -/
def driveListFilesQuery (backend : DriveBackend) : DriveListQueryOutcome :=
  match driveListFilesQueryWithNextToken backend none with
  | none => .typeErrorCrash
  | some (items, _) => .items items

/-- Python truthiness of an optional string: `None` and `''` are falsy. -/
def pyTruthy : Option PyStr → Bool
  | none => false
  | some s => !s.isEmpty

/-- Model of `searchFiles` in the paged mode used by `searchAllFiles` (`npt` truthy):
the special token `'init'` is converted to `None`, then the page is fetched
via `driveListFilesQueryWithNextToken`.  (With a falsy `npt` the source
instead returns the bare item list of `driveListFilesQuery`; that branch is
never reached from `searchAllFiles`, whose tokens are always truthy.) -/
def searchFiles (backend : DriveBackend) (npt : Option PyStr) :
    Option (List DriveItem × Option PyStr) :=
  driveListFilesQueryWithNextToken backend (if npt = some (pstr "init") then none else npt)

/-- Outcome of a full `searchAllFiles` enumeration.  `typeError` is the
`TypeError` raised by `(items, nextPageToken) = None` when a page fetch
returns the retry sentinel; `outOfFuel` only signals insufficient fuel of the
embedding, never a behavior of the source. -/
inductive PagedRun where
  | ok (items : List DriveItem)
  | typeError
  | outOfFuel
deriving DecidableEq

/-- The `while nextPageToken:` loop of `searchAllFiles`, with explicit fuel. -/
def searchAllFilesLoop (backend : DriveBackend) : Nat → Option PyStr → List DriveItem → PagedRun
  | 0, _, _ => .outOfFuel
  | fuel + 1, tok, acc =>
    if pyTruthy tok then
      match searchFiles backend tok with
      | none => .typeError
      | some (items, tok2) => searchAllFilesLoop backend fuel tok2 (acc ++ items)
    else .ok acc

/-- Model of `searchAllFiles`: drives `searchFiles` starting from the token `'init'`,
accumulating `allItems`. -/
def searchAllFiles (backend : DriveBackend) (fuel : Nat) : PagedRun :=
  searchAllFilesLoop backend fuel (some (pstr "init")) []

/-! Models of downloadFile and getDirForClassCamera. -/

/-- What `downloadFile` does after the search-by-name: `exit(1)` or stream the
file with the given drive id and name via `downloadFileByID`. -/
inductive DownloadFileOutcome where
  | exited (code : Nat)
  | downloaded (fileID : PyStr) (fileName : PyStr)
deriving DecidableEq

/-- Run of `downloadFile`: whether the `Expected 1 file but found ...` message
was printed, and the final action. -/
structure DownloadFileRun where
  warned : Bool
  outcome : DownloadFileOutcome
deriving DecidableEq

/-- Model of `downloadFile`, given the result `files` of `driveListFilesByName`:

    if len(files) != 1:  print('Expected 1 file but found', ...)
    if len(files) < 1:   exit(1)
    fileID = files[0]['id']; fileName = files[0]['name']
    downloadFileByID(service, fileID, localFilePath) -/
def downloadFile (files : List DriveItem) : DownloadFileRun :=
  let warned := files.length != 1
  match files with
  | [] => ⟨warned, .exited 1⟩
  | f :: _ => ⟨warned, .downloaded f.id f.name⟩

/-- Model of `getDirForClassCamera`, given the result `dirs` of `driveListFilesByName`:
raises `Exception('getDirForClassCam: Directory not found')` when
`len(dirs) != 1`, else returns `(dirs[0]['id'], dirs[0]['name'])`. -/
def getDirForClassCamera (dirs : List DriveItem) : Except PyStr (PyStr × PyStr) :=
  match dirs with
  | [d] => .ok (d.id, d.name)
  | _ => .error (pstr "getDirForClassCam: Directory not found")

/-! PathCodec: parseGCSPath and repackGCSPath.

The source matches `re.findall('^gs://([a-z0-9_.-]+)/(.+)$', path)`.  The
pattern is anchored, so at most one match exists and the `len(matches) == 1`
check is equivalent to a successful match.  `[a-z0-9_.-]+` is greedy over a
character class that excludes `/`, so the container group is exactly the
maximal run of class characters after the scheme, which must be followed by
`/`.  `.` does not match a newline and `$` also matches just before a final
newline, so `(.+)$` matches a non-empty newline-free name followed by either
the end of the string or one final newline. -/

/-- The parsed `{bucket, name}` dictionary. -/
structure RemotePath where
  bucket : PyStr
  name : PyStr
deriving DecidableEq

/-- Membership in the regex class `[a-z0-9_.-]`. -/
def isContainerChar (c : Char) : Bool :=
  ('a' ≤ c && c ≤ 'z') || ('0' ≤ c && c ≤ '9') || c == '_' || c == '.' || c == '-'

/-- The literal scheme `gs://` that anchors the pattern. -/
def schemeMark : PyStr := pstr "gs://"

/-- Match the anchored literal `gs://` and return the rest of the path. -/
def stripSchemeGS (p : PyStr) : Option PyStr :=
  if schemeMark.isPrefixOf p then some (p.drop 5) else none

/-- Match `([a-z0-9_.-]+)/` greedily, returning the container group and the
remainder after the slash. -/
def matchContainer (rest : PyStr) : Option (PyStr × PyStr) :=
  match rest.dropWhile isContainerChar with
  | '/' :: r =>
    if (rest.takeWhile isContainerChar).isEmpty then none
    else some (rest.takeWhile isContainerChar, r)
  | _ => none

/-- Match `(.+)$` against the remainder: a non-empty newline-free name,
followed by nothing or by one final newline. -/
def matchName (r : PyStr) : Option PyStr :=
  if (r.takeWhile (fun c => c != '\n')).isEmpty then none
  else if r.dropWhile (fun c => c != '\n') = [] ∨ r.dropWhile (fun c => c != '\n') = [ '\n' ] then
    some (r.takeWhile (fun c => c != '\n'))
  else none

/-- Strip one trailing slash: `if name[-1] == '/': name = name[0:-1]`. -/
def stripTrailingSlash (nm : PyStr) : PyStr :=
  if nm.getLast? = some '/' then nm.dropLast else nm

/-- Model of `parseGCSPath`: parse `gs://bucket/name` into `{bucket, name}`, stripping
one trailing slash from the name; `None` when the pattern does not match. -/
def parseGCSPath (path : PyStr) : Option RemotePath :=
  (stripSchemeGS path).bind fun rest =>
    (matchContainer rest).bind fun cr =>
      (matchName cr.2).map fun nm => ⟨cr.1, stripTrailingSlash nm⟩

/-- Model of `repackGCSPath`: `'gs://' + bucketName + '/' + fileName`, no validation. -/
def repackGCSPath (bucketName fileName : PyStr) : PyStr :=
  pstr "gs://" ++ bucketName ++ '/' :: fileName

/-- Whether a string contains two consecutive slashes. -/
def hasDoubleSlash : PyStr → Bool
  | [] => false
  | [_] => false
  | a :: b :: t => (a == '/' && b == '/') || hasDoubleSlash (b :: t)

/-! Cloud-storage listing and TreeSync.

A bucket is embedded as the list of its object names.  `list_blobs` with
delimiter `'/'` returns, for a given prefix, the blobs whose remainder after
the prefix contains no `/`, and the set of "directory" group prefixes — the
prefix extended up to and including the first `/` of the remainder. -/

/-- Blob names directly at the level of `pre` (delimiter `'/'` listing). -/
def listFiles (objects : List PyStr) (pre : PyStr) : List PyStr :=
  objects.filter (fun o => pre.isPrefixOf o && !(o.drop pre.length).contains '/')

/-- The group prefix that object `o` contributes under listing prefix `pre`:
`pre` extended to just past the first `/` of the remainder, if any. -/
def dirGroup (pre o : PyStr) : Option PyStr :=
  if pre.isPrefixOf o then
    if '/' ∈ o.drop pre.length then
      some (pre ++ ((o.drop pre.length).takeWhile (fun c => c != '/') ++ [ '/' ]))
    else none
  else none

/-- Subdirectories at the level of `pre`: the deduplicated group prefixes with
`[0:-1]` applied (the source strips the trailing `/`). -/
def listDirs (objects : List PyStr) (pre : PyStr) : List PyStr :=
  ((objects.filterMap (dirGroup pre)).dedup).map List.dropLast

/-- Model of `listBucketEntries(bucketName, prefix, getDirs, deep)`:
`assert not deep` when `getDirs`; delimiter `''` when `deep` (flattened) and
`'/'` otherwise; returns subdirectory names or blob names. -/
def listBucketEntries (objects : List PyStr) (pre : PyStr) (getDirs deep : Bool) :
    Except PyStr (List PyStr) :=
  if getDirs && deep then .error (pstr "AssertionError")
  else if getDirs then .ok (listDirs objects pre)
  else if deep then .ok (objects.filter (fun o => pre.isPrefixOf o))
  else .ok (listFiles objects pre)

/-- Whether an `Except` result is a success. -/
def exceptIsOk (e : Except PyStr (List PyStr)) : Bool :=
  match e with
  | .ok _ => true
  | .error _ => false

/-- The local filesystem state threaded through a tree sync, plus a counting
stub for the blob fetch call. -/
structure LocalFS where
  files : List PyStr
  dirs : List PyStr
  fetchCount : Nat
deriving DecidableEq

/-- Model of `os.path.join` for the shapes used here (the second component never starts
with `/`). -/
def osPathJoin (d n : PyStr) : PyStr :=
  if d.getLast? = some '/' then d ++ n else d ++ '/' :: n

/-- The last `/`-separated segment, i.e. `f.split('/')[-1]`. -/
def lastSeg (p : PyStr) : PyStr := (p.reverse.takeWhile (fun c => c != '/')).reverse

/-- Model of `if not os.path.exists(localDirPath): os.makedirs(localDirPath)`. -/
def osMakedirs (p : PyStr) (fs : LocalFS) : LocalFS :=
  if p ∈ fs.dirs ∨ p ∈ fs.files then fs else { fs with dirs := fs.dirs ++ [p] }

/-- Model of `downloadBucketFile`: skip when the local file already exists, else fetch
the blob into the local path (counted by `fetchCount`). -/
def downloadBucketFile (fileID localFilePath : PyStr) (fs : LocalFS) : LocalFS :=
  if localFilePath ∈ fs.files then fs
  else { fs with files := fs.files ++ [localFilePath], fetchCount := fs.fetchCount + 1 }

/-- Ensure a trailing slash, i.e. `if dirID[-1] != '/': dirID += '/'` (the source indexes `dirID[-1]`, so
callers pass a non-empty `dirID`). -/
def ensureTrailingSlash (p : PyStr) : PyStr :=
  if p.getLast? = some '/' then p else p ++ [ '/' ]

/-- Model of `downloadBucketDir`: ensure the local directory, download the files at
this prefix level, then recurse into each subdirectory, appending its leaf
name to the local path.  The source recursion has no fuel; `none` means the
embedding's fuel ran out, which the termination theorem rules out. -/
def downloadBucketDir (objects : List PyStr) : Nat → PyStr → PyStr → LocalFS → Option LocalFS
  | 0, _, _, _ => none
  | fuel + 1, dirID, localDirPath, fs =>
    let fs1 := osMakedirs localDirPath fs
    let dirID2 := ensureTrailingSlash dirID
    let files := listFiles objects dirID2
    let fs2 := files.foldl
      (fun acc f => downloadBucketFile f (osPathJoin localDirPath (lastSeg f)) acc) fs1
    let ds := listDirs objects dirID2
    ds.foldlM
      (fun acc d => downloadBucketDir objects fuel d (osPathJoin localDirPath (lastSeg d)) acc) fs2

/-- The longest object name length in the bucket; bounds the recursion depth
of `downloadBucketDir`. -/
def maxObjLen (objects : List PyStr) : Nat :=
  objects.foldr (fun o m => max o.length m) 0

/-- The acyclicity hypothesis of the tree-sync termination claim: every listed
subdirectory prefix strictly extends the (slash-terminated) prefix it was
listed under. -/
def StrictListing (objects : List PyStr) : Prop :=
  ∀ pre d, pre.getLast? = some '/' → d ∈ listDirs objects pre → pre.length < d.length

/-! Concrete inputs used by counterexamples and witnesses. -/

/-- A drive backend whose first page succeeds with one item and continuation
token `tok2`, and whose second page always raises. -/
def exBackendC1 : DriveBackend := fun tok _ =>
  if tok = none then some ([⟨pstr "id1", pstr "f1"⟩], some (pstr "tok2")) else none

/-- A drive backend whose every call raises. -/
def failBackend : DriveBackend := fun _ _ => none

/-- A two-element search result, as returned for an ambiguous file name. -/
def twoMatches : List DriveItem := [⟨pstr "id1", pstr "n1"⟩, ⟨pstr "id2", pstr "n2"⟩]

/-- The remote tree `a/f1, a/b/f2` of the TreeSync claim. -/
def exObjects : List PyStr := [pstr "a/f1", pstr "a/b/f2"]

/-- An empty local filesystem. -/
def emptyFS : LocalFS := ⟨[], [], 0⟩

/-- The files of an optional filesystem state. -/
def filesOf : Option LocalFS → List PyStr
  | none => []
  | some fs => fs.files

/-- The fetch count of an optional filesystem state. -/
def fetchCountOf : Option LocalFS → Nat
  | none => 0
  | some fs => fs.fetchCount

/-- An operation failing on attempts 0 and 1 and succeeding from attempt 2. -/
def opC6 : Nat → Option Nat := fun i => if 2 ≤ i then some 7 else none

example : parseGCSPath (pstr "gs://b//x") = some ⟨pstr "b", pstr "/x"⟩ := by decide
example : parseGCSPath (pstr "gs://b/x/") = some ⟨pstr "b", pstr "x"⟩ := by decide
example : pstr "L/f1" ∈ filesOf (downloadBucketDir exObjects 10 (pstr "a") (pstr "L") emptyFS) := by decide
example : fetchCountOf (downloadBucketDir exObjects 10 (pstr "a") (pstr "L") emptyFS) = 2 := by decide

/-! Helper lemmas. -/

theorem takeWhile_all {p : Char → Bool} :
    ∀ l : List Char, (∀ x ∈ l, p x = true) → l.takeWhile p = l ∧ l.dropWhile p = [] := by
  intro l h
  induction l with
  | nil => exact ⟨rfl, rfl⟩
  | cons a t ih =>
    have ha := h a (List.mem_cons_self a t)
    have iht := ih (fun x hx => h x (List.mem_cons_of_mem a hx))
    rw [List.takeWhile_cons, List.dropWhile_cons, ha]
    simp [iht.1, iht.2]

theorem takeWhile_append_stop {p : Char → Bool} :
    ∀ (l : List Char) (a : Char) (t : List Char), (∀ x ∈ l, p x = true) → p a = false →
      (l ++ a :: t).takeWhile p = l ∧ (l ++ a :: t).dropWhile p = a :: t := by
  intro l a t h ha
  induction l with
  | nil => simp [List.takeWhile_cons, List.dropWhile_cons, ha]
  | cons b l ih =>
    have hb := h b (List.mem_cons_self b l)
    have ihl := ih (fun x hx => h x (List.mem_cons_of_mem b hx))
    rw [List.cons_append, List.takeWhile_cons, List.dropWhile_cons, hb]
    simp [ihl.1, ihl.2]

theorem mem_slash_dropWhile :
    ∀ l : List Char, '/' ∈ l → ∃ t, l.dropWhile (fun c => c != '/') = '/' :: t := by
  intro l h
  induction l with
  | nil => cases h
  | cons a t ih =>
    by_cases ha : a = '/'
    · subst ha
      exact ⟨t, by simp [List.dropWhile_cons]⟩
    · have ha2 : (a != '/') = true := (bne_iff_ne).mpr ha
      rw [List.dropWhile_cons, ha2]
      have hmem : '/' ∈ t := by
        rcases List.mem_cons.mp h with h1 | h2
        · exact absurd h1.symm ha
        · exact h2
      simpa using ih hmem

theorem getLast?_append_right :
    ∀ (l r : List Char), r ≠ [] → (l ++ r).getLast? = r.getLast? := by
  intro l r hr
  induction l with
  | nil => rfl
  | cons a l ih =>
    cases hl : l ++ r with
    | nil =>
      rcases List.append_eq_nil.mp hl with ⟨_, h2⟩
      exact absurd h2 hr
    | cons b t =>
      rw [List.cons_append, hl, List.getLast?_cons_cons, ← hl, ih]

theorem getLast?_some_decomp :
    ∀ (l : List Char) (a : Char), l.getLast? = some a → ∃ t, l = t ++ [a] := by
  intro l
  induction l with
  | nil => intro a h; cases h
  | cons x xs ih =>
    intro a h
    cases xs with
    | nil =>
      refine ⟨[], ?_⟩
      simp only [List.getLast?_singleton, Option.some.injEq] at h
      rw [h]
      rfl
    | cons y ys =>
      rw [List.getLast?_cons_cons] at h
      obtain ⟨t, ht⟩ := ih a h
      exact ⟨x :: t, by rw [List.cons_append, ← ht]⟩

theorem dropLast_append_single (l : List Char) (a : Char) : (l ++ [a]).dropLast = l :=
  List.dropLast_concat

theorem hasDoubleSlash_app : ∀ (x t : List Char), hasDoubleSlash (x ++ '/' :: '/' :: t) = true := by
  intro x t
  induction x with
  | nil => simp [hasDoubleSlash]
  | cons a x ih =>
    rw [List.cons_append]
    cases hx : x ++ '/' :: '/' :: t with
    | nil => simp at hx
    | cons b l =>
      rw [hx] at ih
      unfold hasDoubleSlash
      rw [ih]
      simp

theorem isPrefixOf_exists :
    ∀ l₁ l₂ : PyStr, l₁.isPrefixOf l₂ = true → ∃ t, l₂ = l₁ ++ t := by
  intro l₁
  induction l₁ with
  | nil => intro l₂ _; exact ⟨l₂, rfl⟩
  | cons a l ih =>
    intro l₂ h
    cases l₂ with
    | nil => simp [List.isPrefixOf] at h
    | cons b t =>
      simp only [List.isPrefixOf, Bool.and_eq_true, beq_iff_eq] at h
      obtain ⟨rest, hr⟩ := ih t h.2
      exact ⟨rest, by rw [List.cons_append, ← hr, h.1]⟩

theorem isPrefixOf_append (l t : PyStr) : l.isPrefixOf (l ++ t) = true := by
  induction l with
  | nil => exact List.isPrefixOf_nil_left
  | cons a l ih => simp [List.isPrefixOf, ih]

theorem le_maxObjLen {objects : List PyStr} {o : PyStr} (h : o ∈ objects) :
    o.length ≤ maxObjLen objects := by
  induction objects with
  | nil => cases h
  | cons x xs ih =>
    rcases List.mem_cons.mp h with h1 | h2
    · subst h1
      exact Nat.le_max_left _ _
    · exact Nat.le_trans (ih h2) (Nat.le_max_right _ _)

theorem foldlM_option_ne_none {β σ : Type} (f : σ → β → Option σ) :
    ∀ (l : List β) (s : σ), (∀ b ∈ l, ∀ a, f a b ≠ none) → l.foldlM f s ≠ none := by
  intro l
  induction l with
  | nil => intro s _; simp [List.foldlM]
  | cons b t ih =>
    intro s h
    rw [List.foldlM_cons]
    cases hfb : f s b with
    | none => exact absurd hfb (h b (List.mem_cons_self b t) s)
    | some s2 =>
      simpa [hfb] using ih s2 (fun x hx a => h x (List.mem_cons_of_mem b hx) a)

theorem retryLoopAux_succ {α : Type} (op : Nat → Option α) (n att slp : Nat) :
    retryLoopAux op (n + 1) att slp =
      match op att with
      | some v => ⟨att + 1, slp, some v⟩
      | none =>
        if n > 0 then retryLoopAux op n (att + 1) (slp + 1)
        else retryLoopAux op n (att + 1) slp := rfl

theorem retry_step_fail {α : Type} (op : Nat → Option α) (n att slp : Nat)
    (h : op att = none) :
    retryLoopAux op (n + 2) att slp = retryLoopAux op (n + 1) (att + 1) (slp + 1) := by
  rw [show n + 2 = (n + 1) + 1 from rfl, retryLoopAux_succ, h]
  simp

theorem retry_step_fail_last {α : Type} (op : Nat → Option α) (att slp : Nat)
    (h : op att = none) :
    retryLoopAux op 1 att slp = ⟨att + 1, slp, none⟩ := by
  rw [show (1 : Nat) = 0 + 1 from rfl, retryLoopAux_succ, h]
  simp [retryLoopAux]

theorem retry_step_succ {α : Type} (op : Nat → Option α) (v : α) (n att slp : Nat)
    (h : op att = some v) :
    retryLoopAux op (n + 1) att slp = ⟨att + 1, slp, some v⟩ := by
  rw [retryLoopAux_succ, h]

theorem retryGate5_all_fail {α : Type} (op : Nat → Option α) (h : ∀ i, op i = none) :
    retryGate5 op = ⟨5, 4, none⟩ := by
  unfold retryGate5
  rw [show (5 : Nat) = 3 + 2 from rfl, retry_step_fail op 3 0 0 (h 0),
      retry_step_fail op 2 1 1 (h 1), retry_step_fail op 1 2 2 (h 2),
      retry_step_fail op 0 3 3 (h 3), retry_step_fail_last op 4 4 (h 4)]

/-! Inversion lemmas for the path codec. -/

theorem stripSchemeGS_some {p rest : PyStr} (h : stripSchemeGS p = some rest) :
    p = schemeMark ++ rest := by
  unfold stripSchemeGS at h
  split at h
  · next hp =>
    obtain ⟨t, ht⟩ := isPrefixOf_exists schemeMark p hp
    injection h with h
    rw [ht, ← h]
    rw [ht, show (5 : Nat) = schemeMark.length from rfl, List.drop_left]
  · cases h

theorem stripSchemeGS_append (rest : PyStr) : stripSchemeGS (schemeMark ++ rest) = some rest := by
  unfold stripSchemeGS
  rw [isPrefixOf_append]
  simp only [if_true]
  rw [show (5 : Nat) = schemeMark.length from rfl, List.drop_left]

theorem matchContainer_some {rest cont r : PyStr} (h : matchContainer rest = some (cont, r)) :
    rest = cont ++ '/' :: r ∧ cont ≠ [] ∧ cont = rest.takeWhile isContainerChar := by
  unfold matchContainer at h
  split at h
  · rename_i r2 heq
    split at h
    · cases h
    · rename_i hemp
      injection h with h
      have hc : rest.takeWhile isContainerChar = cont := congrArg Prod.fst h
      have hr : r2 = r := congrArg Prod.snd h
      refine ⟨?_, ?_, hc.symm⟩
      · rw [← hc, ← hr, ← heq, List.takeWhile_append_dropWhile]
      · intro hnil
        rw [hc, hnil] at hemp
        exact hemp rfl
  · cases h

theorem matchName_some {r nm : PyStr} (h : matchName r = some nm) :
    nm = r.takeWhile (fun c => c != '\n') ∧ nm ≠ [] ∧
      (r.dropWhile (fun c => c != '\n') = [] ∨ r.dropWhile (fun c => c != '\n') = [ '\n' ]) := by
  unfold matchName at h
  split at h
  · cases h
  · rename_i hemp
    split at h
    · rename_i htl
      injection h with h
      refine ⟨h.symm, ?_, htl⟩
      intro hnil
      rw [h, hnil] at hemp
      exact hemp rfl
    · cases h

theorem matchContainer_append {cont n : PyStr} (hne : cont ≠ [])
    (hc : ∀ ch ∈ cont, isContainerChar ch = true) :
    matchContainer (cont ++ '/' :: n) = some (cont, n) := by
  have hslash : isContainerChar '/' = false := by decide
  obtain ⟨htake, hdrop⟩ := takeWhile_append_stop cont '/' n hc hslash
  unfold matchContainer
  rw [hdrop, htake]
  cases cont with
  | nil => exact absurd rfl hne
  | cons a t => rfl

theorem matchName_all {n : PyStr} (hne : n ≠ []) (hnl : '\n' ∉ n) :
    matchName n = some n := by
  have hall : ∀ x ∈ n, (x != '\n') = true := by
    intro x hx
    exact bne_iff_ne.mpr (fun he => hnl (he ▸ hx))
  obtain ⟨htake, hdrop⟩ := takeWhile_all n hall
  unfold matchName
  rw [htake, hdrop]
  cases n with
  | nil => exact absurd rfl hne
  | cons a t => simp

theorem stripTrailingSlash_no_slash {nm : PyStr} (h : nm.getLast? ≠ some '/') :
    stripTrailingSlash nm = nm := by
  unfold stripTrailingSlash
  rw [if_neg h]

theorem parseGCSPath_some {p : PyStr} {rp : RemotePath} (h : parseGCSPath p = some rp) :
    ∃ cont r nm,
      p = schemeMark ++ (cont ++ '/' :: r) ∧
      matchContainer (cont ++ '/' :: r) = some (cont, r) ∧
      matchName r = some nm ∧
      rp = ⟨cont, stripTrailingSlash nm⟩ := by
  unfold parseGCSPath at h
  rw [Option.bind_eq_some] at h
  obtain ⟨rest, hs, h⟩ := h
  rw [Option.bind_eq_some] at h
  obtain ⟨cr, hc, h⟩ := h
  obtain ⟨cont, r⟩ := cr
  rw [Option.map_eq_some'] at h
  obtain ⟨nm, hn, hrp⟩ := h
  obtain ⟨hrest, hcne, hcval⟩ := matchContainer_some hc
  refine ⟨cont, r, nm, ?_, ?_, hn, hrp.symm⟩
  · rw [stripSchemeGS_some hs, hrest]
  · rw [← hrest]
    exact hc

/-! Decomposition of the GCS directory listing. -/

theorem mem_listDirs_decomp {objects : List PyStr} {pre d : PyStr}
    (hd : d ∈ listDirs objects pre) :
    ∃ o ∈ objects, ∃ tw t2, o = pre ++ (tw ++ '/' :: t2) ∧ d = pre ++ tw := by
  unfold listDirs at hd
  rw [List.mem_map] at hd
  obtain ⟨g, hg, hgd⟩ := hd
  rw [List.mem_dedup, List.mem_filterMap] at hg
  obtain ⟨o, ho, hgo⟩ := hg
  unfold dirGroup at hgo
  split at hgo
  · rename_i hp
    split at hgo
    · rename_i hsl
      injection hgo with hgo
      obtain ⟨t, rfl⟩ := isPrefixOf_exists pre o hp
      rw [List.drop_left] at hsl
      rw [List.drop_left] at hgo
      obtain ⟨t2, ht2⟩ := mem_slash_dropWhile t hsl
      refine ⟨pre ++ t, ho, t.takeWhile (fun c => c != '/'), t2, ?_, ?_⟩
      · congr 1
        rw [← ht2]
        exact (List.takeWhile_append_dropWhile _ t).symm
      · rw [← hgd, ← hgo, ← List.append_assoc, dropLast_append_single]
    · cases hgo
  · cases hgo

theorem listDirs_length_le {objects : List PyStr} {pre d : PyStr}
    (hd : d ∈ listDirs objects pre) : d.length + 1 ≤ maxObjLen objects := by
  obtain ⟨o, ho, tw, t2, ho2, hd2⟩ := mem_listDirs_decomp hd
  have h1 : pre.length + tw.length + 1 ≤ o.length := by
    rw [ho2]
    simp [List.length_append]
    omega
  have h2 : d.length = pre.length + tw.length := by
    rw [hd2]
    simp [List.length_append]
  have h3 := le_maxObjLen ho
  omega

theorem strictListing_of_noDoubleSlash {objects : List PyStr}
    (h : ∀ o ∈ objects, hasDoubleSlash o = false) : StrictListing objects := by
  intro pre d hpre hd
  obtain ⟨o, ho, tw, t2, ho2, hd2⟩ := mem_listDirs_decomp hd
  rcases tw with _ | ⟨a, tw2⟩
  · exfalso
    obtain ⟨p0, hp0⟩ := getLast?_some_decomp pre '/' hpre
    have ho3 : o = p0 ++ '/' :: '/' :: t2 := by
      rw [ho2, hp0]
      simp
    have hds := hasDoubleSlash_app p0 t2
    rw [← ho3, h o ho] at hds
    cases hds
  · rw [hd2]
    simp [List.length_append]

theorem ensureTrailingSlash_last (p : PyStr) : (ensureTrailingSlash p).getLast? = some '/' := by
  unfold ensureTrailingSlash
  split
  · assumption
  · rw [getLast?_append_right p [ '/' ] (by simp)]
    rfl

theorem ensureTrailingSlash_le (p : PyStr) : p.length ≤ (ensureTrailingSlash p).length := by
  unfold ensureTrailingSlash
  split
  · exact Nat.le_refl _
  · simp [List.length_append]

theorem downloadBucketDir_total_aux (objects : List PyStr) (hstrict : StrictListing objects) :
    ∀ fuel dirID lp fs, dirID ≠ [] → 1 ≤ fuel →
      maxObjLen objects + 2 ≤ fuel + dirID.length →
      downloadBucketDir objects fuel dirID lp fs ≠ none := by
  intro fuel
  induction fuel with
  | zero =>
    intro dirID lp fs hne h1 h2
    exact absurd h1 (by omega)
  | succ fuel ih =>
    intro dirID lp fs hne h1 h2
    simp only [downloadBucketDir]
    apply foldlM_option_ne_none
    intro d hd acc
    have hlast := ensureTrailingSlash_last dirID
    have hst := hstrict (ensureTrailingSlash dirID) d hlast hd
    have hlen := listDirs_length_le hd
    have hge := ensureTrailingSlash_le dirID
    apply ih d (osPathJoin lp (lastSeg d)) acc
    · exact List.ne_nil_of_length_pos (by omega)
    · omega
    · omega

theorem stripTrailingSlash_props {cont nm tail : PyStr}
    (hds : hasDoubleSlash (cont ++ '/' :: (nm ++ tail)) = false) (hrne : nm ≠ []) :
    (stripTrailingSlash nm).head? ≠ some '/' ∧ (stripTrailingSlash nm).getLast? ≠ some '/' := by
  obtain ⟨a, r1, rfl⟩ : ∃ a r1, nm = a :: r1 := by
    cases nm with
    | nil => exact absurd rfl hrne
    | cons a r1 => exact ⟨a, r1, rfl⟩
  have ha : a ≠ '/' := by
    intro he
    subst he
    rw [show (('/' :: r1) ++ tail : PyStr) = '/' :: (r1 ++ tail) from rfl,
        hasDoubleSlash_app cont (r1 ++ tail)] at hds
    cases hds
  constructor
  · unfold stripTrailingSlash
    split
    · rename_i hl
      cases r1 with
      | nil => exact absurd (by simpa using hl) ha
      | cons b r2 =>
        rw [show ((a :: b :: r2).dropLast) = a :: (b :: r2).dropLast from rfl]
        intro hh
        rw [List.head?_cons, Option.some.injEq] at hh
        exact ha hh
    · intro hh
      rw [List.head?_cons, Option.some.injEq] at hh
      exact ha hh
  · unfold stripTrailingSlash
    split
    · rename_i hl
      obtain ⟨t0, ht0⟩ := getLast?_some_decomp (a :: r1) '/' hl
      rw [ht0, dropLast_append_single]
      intro hh
      obtain ⟨t1, ht1⟩ := getLast?_some_decomp t0 '/' hh
      have hshape : cont ++ '/' :: ((a :: r1) ++ tail) = (cont ++ '/' :: t1) ++ '/' :: '/' :: tail := by
        rw [ht0, ht1]
        simp
      rw [hshape, hasDoubleSlash_app] at hds
      cases hds
    · rename_i hl
      exact hl

/-! The claims. -/

/-- Claim C1, counterexample: with a backend whose first page succeeds with
one item and whose second page exhausts its retries, `searchAllFiles` does
not return the accumulated one-item partial result; unpacking the sentinel
raises a `TypeError` that fails the whole enumeration. -/
theorem searchAllFiles_failure_not_partial_cex :
    searchAllFiles exBackendC1 10 = .typeError ∧
    searchAllFiles exBackendC1 10 ≠ .ok [⟨pstr "id1", pstr "f1"⟩] := by decide

/-- Claim C1 (amended): when a page fetch exhausts its retries and returns
the RetryGate sentinel-failure, pagination does not stop early with the
accumulated items; the tuple-unpacking of the sentinel raises a `TypeError`,
so the whole enumeration fails and the accumulated items are lost.  Stated
both for any loop state whose current fetch returns the sentinel, and for a
whole run whose first page fetch always fails. -/
theorem searchAllFiles_sentinel_raises :
    (∀ (backend : DriveBackend) (fuel : Nat) (tok : Option PyStr) (acc : List DriveItem),
        pyTruthy tok = true → searchFiles backend tok = none →
        searchAllFilesLoop backend (fuel + 1) tok acc = .typeError) ∧
    (∀ (backend : DriveBackend) (fuel : Nat), (∀ att, backend none att = none) →
        searchAllFiles backend (fuel + 1) = .typeError) := by
  have h1 : ∀ (backend : DriveBackend) (fuel : Nat) (tok : Option PyStr) (acc : List DriveItem),
      pyTruthy tok = true → searchFiles backend tok = none →
      searchAllFilesLoop backend (fuel + 1) tok acc = .typeError := by
    intro backend fuel tok acc ht hf
    simp only [searchAllFilesLoop, ht, hf, if_true]
  refine ⟨h1, ?_⟩
  intro backend fuel h
  have hf : searchFiles backend (some (pstr "init")) = none := by
    unfold searchFiles driveListFilesQueryWithNextToken
    rw [if_pos rfl, retryGate5_all_fail (backend none) h]
  exact h1 backend fuel (some (pstr "init")) [] (by decide) hf

/-- Claim C1, witness: the amended theorem applied at a concrete backend. -/
theorem searchAllFiles_sentinel_raises_witness :
    searchAllFilesLoop exBackendC1 3 (some (pstr "tok2")) [] = .typeError ∧
    searchAllFiles failBackend 4 = .typeError :=
  ⟨searchAllFiles_sentinel_raises.1 exBackendC1 2 (some (pstr "tok2")) [] (by decide) (by decide),
   searchAllFiles_sentinel_raises.2 failBackend 3 (fun att => rfl)⟩

/-- Claim C2, counterexample: with two matches, `downloadFile` does not abort;
it downloads the first match (after printing the mismatch message). -/
theorem downloadFile_multi_match_cex :
    (downloadFile twoMatches).outcome = .downloaded (pstr "id1") (pstr "n1") ∧
    (downloadFile twoMatches).outcome ≠ .exited 1 := by decide

/-- Claim C2 (amended): `downloadFile` prints the mismatch message whenever
the match count differs from 1, but it aborts (`exit(1)`) only when the
search yields zero matches; with one or more matches it streams the first
match to the local path. -/
theorem downloadFile_behavior :
    ∀ files : List DriveItem,
      (downloadFile files).warned = (files.length != 1) ∧
      (files = [] → (downloadFile files).outcome = .exited 1) ∧
      (∀ f rest, files = f :: rest → (downloadFile files).outcome = .downloaded f.id f.name) := by
  intro files
  cases files with
  | nil => exact ⟨rfl, fun _ => rfl, fun f rest hd => List.noConfusion hd⟩
  | cons f t =>
    refine ⟨rfl, fun hd => List.noConfusion hd, ?_⟩
    intro f2 rest hd
    injection hd with h1 h2
    subst h1
    rfl

/-- Claim C2, witness: the amended theorem applied at concrete inputs. -/
theorem downloadFile_behavior_witness :
    (downloadFile []).outcome = .exited 1 ∧
    (downloadFile [⟨pstr "a", pstr "b"⟩]).outcome = .downloaded (pstr "a") (pstr "b") :=
  ⟨(downloadFile_behavior []).2.1 rfl,
   (downloadFile_behavior [⟨pstr "a", pstr "b"⟩]).2.2 ⟨pstr "a", pstr "b"⟩ [] rfl⟩

/-- Claim C3, counterexample: parsing `gs://b//x` yields a name with a
leading slash, and parsing `gs://b/x//` yields a name with a trailing slash
(only one trailing slash is stripped), so the claimed invariant fails. -/
theorem parseGCSPath_slash_invariant_cex :
    parseGCSPath (pstr "gs://b//x") = some ⟨pstr "b", pstr "/x"⟩ ∧
    (pstr "/x").head? = some '/' ∧
    parseGCSPath (pstr "gs://b/x//") = some ⟨pstr "b", pstr "x/"⟩ ∧
    (pstr "x/").getLast? = some '/' := by decide

/-- Claim C3 (amended): for every input on which `parseGCSPath` succeeds, the
container is a non-empty string over `[a-z0-9_.-]`; and provided the input
has no two consecutive slashes after the `gs://` scheme, the name has no
leading slash and no trailing slash.  (Without that proviso the name can
keep a leading slash, or keep one of two trailing slashes, since only one
is stripped.) -/
theorem parseGCSPath_invariant :
    ∀ (p : PyStr) (rp : RemotePath), parseGCSPath p = some rp →
      (rp.bucket ≠ [] ∧ ∀ c ∈ rp.bucket, isContainerChar c = true) ∧
      (hasDoubleSlash (p.drop 5) = false →
        rp.name.head? ≠ some '/' ∧ rp.name.getLast? ≠ some '/') := by
  intro p rp h
  obtain ⟨cont, r, nm, hp, hmc, hmn, hrp⟩ := parseGCSPath_some h
  obtain ⟨hrest, hcne, hcval⟩ := matchContainer_some hmc
  subst hrp
  constructor
  · refine ⟨hcne, ?_⟩
    intro c hc
    change c ∈ cont at hc
    rw [hcval] at hc
    exact List.mem_takeWhile_imp hc
  · intro hds
    have hdrop : p.drop 5 = cont ++ '/' :: r := by
      rw [hp, show (5 : Nat) = schemeMark.length from rfl, List.drop_left]
    rw [hdrop] at hds
    obtain ⟨hnm1, hnm2, _⟩ := matchName_some hmn
    have hr : r = nm ++ r.dropWhile (fun c => c != '\n') := by
      rw [hnm1]
      exact (List.takeWhile_append_dropWhile _ r).symm
    rw [hr] at hds
    exact stripTrailingSlash_props hds hnm2

/-- Claim C3, witness: the amended theorem applied at `gs://bkt/k`. -/
theorem parseGCSPath_invariant_witness :
    (pstr "bkt" ≠ [] ∧ ∀ c ∈ pstr "bkt", isContainerChar c = true) ∧
    ((pstr "k").head? ≠ some '/' ∧ (pstr "k").getLast? ≠ some '/') := by
  have h := parseGCSPath_invariant (pstr "gs://bkt/k") ⟨pstr "bkt", pstr "k"⟩ (by decide)
  exact ⟨h.1, h.2 (by decide)⟩

/-- Claim C4, counterexample: the round-trip law fails as stated.  The empty
key has no trailing slash, yet `parse(repack("c", "")) = None` rather than
`{container: "c", name: ""}`; and `gs://c/x\n` matches the pattern, has no
trailing slash, yet repacking its parse gives `gs://c/x`, not the original. -/
theorem gcs_roundtrip_cex :
    parseGCSPath (repackGCSPath (pstr "c") []) = none ∧
    parseGCSPath (pstr "gs://c/x\n") = some ⟨pstr "c", pstr "x"⟩ ∧
    (pstr "gs://c/x\n").getLast? ≠ some '/' ∧
    repackGCSPath (pstr "c") (pstr "x") ≠ pstr "gs://c/x\n" := by decide

/-- Claim C4 (amended): for every well-formed container `c` and every
non-empty, newline-free key `n` without a trailing slash,
`parse(repack(c, n)) = {container: c, name: n}`; and for every newline-free
path `p` without a trailing slash on which `parse` succeeds,
`repack(parse(p).container, parse(p).name) = p`. -/
theorem gcs_roundtrip :
    (∀ c n : PyStr, c ≠ [] → (∀ ch ∈ c, isContainerChar ch = true) →
        n ≠ [] → '\n' ∉ n → n.getLast? ≠ some '/' →
        parseGCSPath (repackGCSPath c n) = some ⟨c, n⟩) ∧
    (∀ (p : PyStr) (rp : RemotePath), '\n' ∉ p → p.getLast? ≠ some '/' →
        parseGCSPath p = some rp → repackGCSPath rp.bucket rp.name = p) := by
  constructor
  · intro c n hc hcall hn hnl hsl
    have hrepack : repackGCSPath c n = schemeMark ++ (c ++ '/' :: n) := by
      unfold repackGCSPath schemeMark
      rw [List.append_assoc]
    rw [hrepack]
    unfold parseGCSPath
    rw [stripSchemeGS_append, Option.some_bind, matchContainer_append hc hcall,
        Option.some_bind]
    rw [matchName_all hn hnl, Option.map_some', stripTrailingSlash_no_slash hsl]
  · intro p rp hnl hsl h
    obtain ⟨cont, r, nm, hp, hmc, hmn, hrp⟩ := parseGCSPath_some h
    subst hrp
    have hnlr : '\n' ∉ r := by
      intro hmem
      apply hnl
      rw [hp]
      exact List.mem_append_right _ (List.mem_append_right _ (List.mem_cons_of_mem _ hmem))
    obtain ⟨hnm1, hnm2, _⟩ := matchName_some hmn
    have hall : ∀ x ∈ r, (x != '\n') = true :=
      fun x hx => bne_iff_ne.mpr (fun he => hnlr (he ▸ hx))
    have hnmr : nm = r := by rw [hnm1, (takeWhile_all r hall).1]
    subst hnmr
    have hpl : p.getLast? = nm.getLast? := by
      rw [hp, getLast?_append_right schemeMark (cont ++ '/' :: nm) (by simp),
          getLast?_append_right cont ('/' :: nm) (by simp),
          show ('/' :: nm : PyStr) = [ '/' ] ++ nm from rfl,
          getLast?_append_right [ '/' ] nm hnm2]
    have hrl : nm.getLast? ≠ some '/' := by
      intro hh
      exact hsl (by rw [hpl, hh])
    change repackGCSPath cont (stripTrailingSlash nm) = p
    rw [stripTrailingSlash_no_slash hrl, hp]
    unfold repackGCSPath schemeMark
    rw [List.append_assoc]

/-- Claim C4, witness: both round-trip directions at `gs://bkt/dir/file`. -/
theorem gcs_roundtrip_witness :
    parseGCSPath (repackGCSPath (pstr "bkt") (pstr "dir/file")) =
      some ⟨pstr "bkt", pstr "dir/file"⟩ ∧
    repackGCSPath (pstr "bkt") (pstr "dir/file") = pstr "gs://bkt/dir/file" :=
  ⟨gcs_roundtrip.1 (pstr "bkt") (pstr "dir/file") (by decide) (by decide) (by decide)
      (by decide) (by decide),
   gcs_roundtrip.2 (pstr "gs://bkt/dir/file") ⟨pstr "bkt", pstr "dir/file"⟩ (by decide)
      (by decide) (by decide)⟩

/-- Claim C5: an operation that fails on every attempt is invoked exactly 5
times by the retry wrapper (as in `createFolder` and `uploadFile`), the fixed
delay is slept exactly 4 times (total simulated delay 4 x 5 seconds), and the
sentinel-failure `None` is returned instead of propagating the error. -/
theorem retry_exhaustion :
    ∀ (α : Type) (op : Nat → Option α), (∀ i, op i = none) →
      createFolder op = ⟨5, 4, none⟩ ∧ uploadFile op = ⟨5, 4, none⟩ ∧
      totalDelay (createFolder op) = 4 * retryDelaySeconds := by
  intro α op h
  have e : retryGate5 op = ⟨5, 4, none⟩ := retryGate5_all_fail op h
  refine ⟨e, e, ?_⟩
  unfold totalDelay
  rw [show createFolder op = (⟨5, 4, none⟩ : RetryTrace α) from e]

/-- Claim C5, witness: the theorem applied to an always-failing operation. -/
theorem retry_exhaustion_witness :
    createFolder (fun _ : Nat => (none : Option Nat)) = ⟨5, 4, none⟩ ∧
    uploadFile (fun _ : Nat => (none : Option Nat)) = ⟨5, 4, none⟩ ∧
    totalDelay (createFolder (fun _ : Nat => (none : Option Nat))) = 4 * retryDelaySeconds :=
  retry_exhaustion Nat (fun _ => none) (fun _ => rfl)

/-- Claim C6: an operation failing on attempts 1 and 2 and succeeding on
attempt 3 is invoked exactly 3 times by the retry wrapper (as in
`createFolder` and `uploadFile`) and the success value is returned, with no
further attempts after the first success (the trace records 3 attempts and 2
sleeps). -/
theorem retry_success_third :
    ∀ (α : Type) (op : Nat → Option α) (v : α), op 0 = none → op 1 = none → op 2 = some v →
      createFolder op = ⟨3, 2, some v⟩ ∧ uploadFile op = ⟨3, 2, some v⟩ := by
  intro α op v h0 h1 h2
  have s1 : retryLoopAux op 5 0 0 = retryLoopAux op 4 1 1 := retry_step_fail op 3 0 0 h0
  have s2 : retryLoopAux op 4 1 1 = retryLoopAux op 3 2 2 := retry_step_fail op 2 1 1 h1
  have s3 : retryLoopAux op 3 2 2 = ⟨3, 2, some v⟩ := retry_step_succ op v 2 2 2 h2
  have e : retryGate5 op = ⟨3, 2, some v⟩ := s1.trans (s2.trans s3)
  exact ⟨e, e⟩

/-- Claim C6, witness: the theorem applied to an operation succeeding on its
third attempt. -/
theorem retry_success_third_witness :
    createFolder opC6 = ⟨3, 2, some 7⟩ ∧ uploadFile opC6 = ⟨3, 2, some 7⟩ :=
  retry_success_third Nat opC6 7 rfl rfl rfl

/-- Claim C7: `getDirForClassCamera` raises (returns the exception) whenever
the exact-name search yields any number of folders other than exactly one;
with exactly one match it returns that folder's id and name. -/
theorem getDirForClassCamera_unique :
    ∀ dirs : List DriveItem,
      (dirs.length ≠ 1 →
        getDirForClassCamera dirs = .error (pstr "getDirForClassCam: Directory not found")) ∧
      (∀ d, dirs = [d] → getDirForClassCamera dirs = .ok (d.id, d.name)) := by
  intro dirs
  match dirs with
  | [] => exact ⟨fun _ => rfl, fun d hd => List.noConfusion hd⟩
  | [d] =>
    refine ⟨fun h => absurd rfl h, ?_⟩
    intro d2 hd
    injection hd with h1 h2
    subst h1
    rfl
  | d1 :: d2 :: t =>
    refine ⟨fun _ => rfl, ?_⟩
    intro d hd
    injection hd with h1 h2
    exact List.noConfusion h2

/-- Claim C7, witness: the theorem applied at zero matches and one match. -/
theorem getDirForClassCamera_unique_witness :
    getDirForClassCamera [] = .error (pstr "getDirForClassCam: Directory not found") ∧
    getDirForClassCamera [⟨pstr "i", pstr "cam"⟩] = .ok (pstr "i", pstr "cam") :=
  ⟨(getDirForClassCamera_unique []).1 (by decide),
   (getDirForClassCamera_unique [⟨pstr "i", pstr "cam"⟩]).2 ⟨pstr "i", pstr "cam"⟩ rfl⟩

/-- Claim C8: syncing the remote tree `a/f1, a/b/f2` into local directory `L`
produces `L/f1` and `L/b/f2`; `downloadBucketFile` never fetches a file whose
local counterpart already exists by name; and re-running the whole sync on
the resulting local state performs no further fetches. -/
theorem downloadBucketDir_mirrors :
    (pstr "L/f1" ∈ filesOf (downloadBucketDir exObjects 10 (pstr "a") (pstr "L") emptyFS) ∧
     pstr "L/b/f2" ∈ filesOf (downloadBucketDir exObjects 10 (pstr "a") (pstr "L") emptyFS)) ∧
    (∀ fileID path fs, path ∈ fs.files → downloadBucketFile fileID path fs = fs) ∧
    fetchCountOf (downloadBucketDir exObjects 10 (pstr "a") (pstr "L")
        ((downloadBucketDir exObjects 10 (pstr "a") (pstr "L") emptyFS).getD emptyFS)) =
      fetchCountOf (downloadBucketDir exObjects 10 (pstr "a") (pstr "L") emptyFS) := by
  refine ⟨by decide, ?_, by decide⟩
  intro fileID path fs hmem
  unfold downloadBucketFile
  rw [if_pos hmem]

/-- Claim C8, witness: the skip-if-exists conjunct applied to a state that
already has the file. -/
theorem downloadBucketDir_mirrors_witness :
    downloadBucketFile (pstr "a/f1") (pstr "L/f1") ⟨[pstr "L/f1"], [pstr "L"], 1⟩ =
      ⟨[pstr "L/f1"], [pstr "L"], 1⟩ :=
  downloadBucketDir_mirrors.2.1 (pstr "a/f1") (pstr "L/f1")
    ⟨[pstr "L/f1"], [pstr "L"], 1⟩ (by decide)

/-- Claim C9: under the acyclicity hypothesis that every listed subdirectory
prefix strictly extends the slash-terminated prefix it was listed under, the
recursion of `downloadBucketDir` terminates: any fuel of at least the longest
object name plus 2 is never exhausted, because every recursive call operates
on a strictly longer prefix bounded by the object names. -/
theorem downloadBucketDir_terminates :
    ∀ (objects : List PyStr) (dirID localDirPath : PyStr) (fs : LocalFS) (fuel : Nat),
      dirID ≠ [] → StrictListing objects → maxObjLen objects + 2 ≤ fuel →
      downloadBucketDir objects fuel dirID localDirPath fs ≠ none := by
  intro objects dirID lp fs fuel hne hstrict hfuel
  exact downloadBucketDir_total_aux objects hstrict fuel dirID lp fs hne (by omega) (by omega)

/-- Claim C9, witness: the theorem applied to the concrete two-object bucket,
whose listing is strict since no object name contains `//`. -/
theorem downloadBucketDir_terminates_witness :
    downloadBucketDir exObjects 10 (pstr "a") (pstr "L") emptyFS ≠ none :=
  downloadBucketDir_terminates exObjects (pstr "a") (pstr "L") emptyFS 10 (by decide)
    (strictListing_of_noDoubleSlash
      (by decide : ∀ o ∈ exObjects, hasDoubleSlash o = false))
    (by decide)

/-- Claim C10: calling `listBucketEntries` with both `getDirs` and `deep` set
fails the `assert not deep` assertion; with at most one of the two flags set
the assertion never triggers and a listing is returned. -/
theorem listBucketEntries_assert :
    ∀ (objects : List PyStr) (pre : PyStr),
      listBucketEntries objects pre true true = .error (pstr "AssertionError") ∧
      (∀ getDirs deep : Bool, (getDirs && deep) = false →
        exceptIsOk (listBucketEntries objects pre getDirs deep) = true) := by
  intro objects pre
  refine ⟨rfl, ?_⟩
  intro gd dp h
  cases gd <;> cases dp
  · rfl
  · rfl
  · rfl
  · exact Bool.noConfusion h

/-- Claim C10, witness: the theorem applied at the concrete bucket for the
asserting and a non-asserting flag combination. -/
theorem listBucketEntries_assert_witness :
    listBucketEntries exObjects (pstr "a/") true true = .error (pstr "AssertionError") ∧
    exceptIsOk (listBucketEntries exObjects (pstr "a/") true false) = true :=
  ⟨(listBucketEntries_assert exObjects (pstr "a/")).1,
   (listBucketEntries_assert exObjects (pstr "a/")).2 true false (by decide)⟩
